import Mathlib

/-!
Verification of the Tool-Use Agent demo.

The shown sources are the frontend: the API service class (queryAgent,
deleteConversation, checkHealth) and the Chat component (handleSubmit,
startNewConversation).  The backend orchestration core (Conversation Store,
Model Gateway, Tool Dispatcher, Result Cache, Orchestration Loop) is not in
the shown sources; those parts are modelled from the spec and marked as such.
-/

/-- JSON values, as produced and consumed by the HTTP layer. -/
inductive Json where
  | null : Json
  | bool (b : Bool) : Json
  | num (n : Int) : Json
  | str (s : String) : Json
  | arr (xs : List Json) : Json
  | obj (fields : List (String × Json)) : Json

/-- Field lookup on a JSON object, i.e. the JS expression `data.field`
(first binding wins, `none` models `undefined`). -/
def Json.getField : Json → String → Option Json
  | .obj fields, k => (fields.find? (fun p => p.1 == k)).map (fun p => p.2)
  | _, _ => none

/-- One rendered tool invocation as it appears in the API response:
`tool_name`, `tool_input`, `tool_output` (services/api.ts, AgentResponse). -/
structure ToolCallRecord where
  tool_name : String
  tool_input : List (String × Json)
  tool_output : Json

/-- The Agent API response shape declared by the frontend service:
`response` and `conversation_id` mandatory, `tool_calls` optional
(services/api.ts, interface AgentResponse). -/
structure AgentResponse where
  response : String
  conversation_id : String
  tool_calls : Option (List ToolCallRecord)

/-- Outcome of one `fetch` call: the promise rejects (network failure,
carrying the thrown error message) or resolves with a response whose `ok`
flag is set from the status, and whose body may or may not parse as JSON
(`none` models a `response.json()` rejection). -/
inductive FetchOutcome where
  | netError (msg : String)
  | response (ok : Bool) (body : Option Json)

/-- The JS expression `JSON.stringify (with query and conversation_id)` used as
the POST /api/agent body: `JSON.stringify` omits a key whose value is
`undefined`, so the body holds `query` always and `conversation_id` only
when one was passed (services/api.ts, queryAgent). -/
def stringifyAgentRequest (query : String) (conversationId : Option String) : Json :=
  Json.obj (("query", Json.str query) ::
    (match conversationId with
     | some c => [("conversation_id", Json.str c)]
     | none => []))

/-- Shape check for one element of `tool_calls`. -/
def decodeToolCallRecord (j : Json) : Option ToolCallRecord :=
  match j.getField "tool_name", j.getField "tool_input", j.getField "tool_output" with
  | some (.str n), some (.obj inp), some out => some ⟨n, inp, out⟩
  | _, _, _ => none

/-- Shape check for a `tool_calls` array, element by element. -/
def decodeToolCallList : List Json → Option (List ToolCallRecord)
  | [] => some []
  | j :: js =>
    match decodeToolCallRecord j, decodeToolCallList js with
    | some r, some rs => some (r :: rs)
    | _, _ => none

/-- Shape check for a successful POST /api/agent response body: the declared
`AgentResponse` interface made explicit.  `response` and `conversation_id`
must be present strings; `tool_calls`, when present, must be an array of
well-formed records. -/
def decodeAgentResponse (j : Json) : Option AgentResponse :=
  match j.getField "response", j.getField "conversation_id" with
  | some (.str r), some (.str cid) =>
    (match j.getField "tool_calls" with
     | none => some ⟨r, cid, none⟩
     | some (.arr ts) =>
       (match decodeToolCallList ts with
        | some rs => some ⟨r, cid, some rs⟩
        | none => none)
     | some _ => none)
  | _, _ => none

/-- Serialization of a `ToolCallRecord` back to JSON, for the round trip. -/
def serializeToolCallRecord (r : ToolCallRecord) : Json :=
  Json.obj [("tool_name", Json.str r.tool_name),
            ("tool_input", Json.obj r.tool_input),
            ("tool_output", r.tool_output)]

/-- Serialization of an `AgentResponse` to JSON, with `tool_calls` omitted
when absent, matching the optional field of the declared interface. -/
def serializeAgentResponse (r : AgentResponse) : Json :=
  Json.obj ([("response", Json.str r.response),
             ("conversation_id", Json.str r.conversation_id)] ++
    (match r.tool_calls with
     | some ts => [("tool_calls", Json.arr (ts.map serializeToolCallRecord))]
     | none => []))

/-- The `detail` extraction on a non-ok response: `errorData.detail` if it is
a truthy string, else the fallback message (services/api.ts, queryAgent). -/
def agentErrorDetail (body : Option Json) : String :=
  match body with
  | some j =>
    (match j.getField "detail" with
     | some (.str d) => if d = "" then "An error occurred while querying the agent." else d
     | _ => "An error occurred while querying the agent.")
  | none => "Failed to parse error response."

/-- AgentService.queryAgent: POST to /api/agent; on a non-ok response or a
network failure the function throws (an `Except.error`), on an ok response
the parsed body is returned under the declared `AgentResponse` shape. -/
def queryAgent (outcome : FetchOutcome) : Except String AgentResponse :=
  match outcome with
  | .netError e => .error e
  | .response ok body =>
    if ok then
      match body with
      | some j =>
        (match decodeAgentResponse j with
         | some r => .ok r
         | none => .error "Malformed agent response.")
      | none => .error "Failed to parse response."
    else
      .error (agentErrorDetail body)

/-- The `detail` extraction on a non-ok DELETE response
(services/api.ts, deleteConversation). -/
def deleteErrorDetail (body : Option Json) : String :=
  match body with
  | some j =>
    (match j.getField "detail" with
     | some (.str d) => if d = "" then "An error occurred while deleting the conversation." else d
     | _ => "An error occurred while deleting the conversation.")
  | none => "Failed to parse error response."

/-- AgentService.deleteConversation: DELETE to /api/conversations/id;
returns unit on an ok response, throws on a non-ok response or a network
failure. -/
def deleteConversation (outcome : FetchOutcome) : Except String Unit :=
  match outcome with
  | .netError e => .error e
  | .response ok body => if ok then .ok () else .error (deleteErrorDetail body)

/-- The frontend health report: `isHealthy` plus the pass-through
`api_key_configured` field (absent when unhealthy or when the body lacks it),
mirroring the TS return type of checkHealth. -/
structure HealthStatus where
  isHealthy : Bool
  apiKeyConfigured : Option Json

/-- AgentService.checkHealth: GET /health inside a try/catch.  An ok response
with a JSON body yields `isHealthy := true` and the body's
`api_key_configured` field (`undefined`, i.e. `none`, when the parsed body is
a non-null non-object — JS property access does not throw there); a body that
parses to JSON `null` makes `data.api_key_configured` throw a TypeError,
which the catch turns into `isHealthy := false`; a non-ok response returns
`isHealthy := false` without reading the body; a network failure or a
`response.json()` rejection is caught the same way.  The function never
throws: its result type is plain `HealthStatus`. -/
def checkHealth (outcome : FetchOutcome) : HealthStatus :=
  match outcome with
  | .netError _ => ⟨false, none⟩
  | .response ok body =>
    if ok then
      match body with
      | some Json.null => ⟨false, none⟩
      | some j => ⟨true, j.getField "api_key_configured"⟩
      | none => ⟨false, none⟩
    else ⟨false, none⟩

/-- JS whitespace for `String.prototype.trim`: space, tab, line feed,
carriage return, vertical tab, form feed, no-break space, BOM. -/
def isJsWhitespace (c : Char) : Bool :=
  c == ' ' || c == '\t' || c == '\n' || c == '\r' ||
  c == Char.ofNat 11 || c == Char.ofNat 12 || c == Char.ofNat 160 ||
  c == Char.ofNat 65279

/-- The JS `input.trim()`: leading and trailing whitespace removed. -/
def jsTrim (s : String) : String :=
  String.mk (((s.toList.dropWhile isJsWhitespace).reverse.dropWhile isJsWhitespace).reverse)

/-- Chat message roles (Chat component, interface ChatMessage). -/
inductive Role where
  | user : Role
  | assistant : Role
deriving DecidableEq

/-- A chat message as held in the component state. -/
structure ChatMessage where
  role : Role
  content : String
  toolCalls : Option (List ToolCallRecord)

/-- The Chat component state touched by submission: the message list, the
input box, the loading flag and the held conversation id (`none` is JS
`null`). -/
structure ChatState where
  messages : List ChatMessage
  input : String
  isLoading : Bool
  conversationId : Option String

/-- JS truthiness of a `string | null` value: `null` and the empty string
are falsy. -/
def jsTruthyStrOpt : Option String → Bool
  | none => false
  | some s => s ≠ ""

/-- The JS expression `conversationId || undefined` passed to queryAgent:
a falsy held id becomes `undefined` (no id sent). -/
def jsOrUndefined : Option String → Option String
  | none => none
  | some s => if s = "" then none else some s

/-- The request handleSubmit sends: the query text and the optional
conversation id argument. -/
structure SentRequest where
  query : String
  conversation_id : Option String

/-- The fixed apology appended when querying the agent throws
(Chat component, handleSubmit catch branch). -/
def apologyText : String :=
  "Sorry, I encountered an error while processing your request. Please try again."

/-- Chat.handleSubmit: an all-whitespace input returns early with nothing
sent and nothing changed.  Otherwise the user message is appended, the input
cleared and loading set; the agent is queried with `conversationId ||
undefined`; on success the returned id is stored only when it is truthy and
no id was held (`response.conversation_id && !conversationId`), and the
assistant message with its tool calls is appended; on a thrown error the
apology message is appended instead; loading is cleared in both branches.
The second component reports the request sent, `none` when none was. -/
def handleSubmit (st : ChatState) (outcome : FetchOutcome) :
    ChatState × Option SentRequest :=
  if jsTrim st.input = "" then (st, none)
  else
    let userMsg : ChatMessage := ⟨Role.user, st.input, none⟩
    let sent : SentRequest := ⟨st.input, jsOrUndefined st.conversationId⟩
    let st1 : ChatState :=
      { st with messages := st.messages ++ [userMsg], input := "", isLoading := true }
    match queryAgent outcome with
    | .ok r =>
      let cid : Option String :=
        if r.conversation_id ≠ "" ∧ ¬ (jsTruthyStrOpt st.conversationId) then
          some r.conversation_id
        else st.conversationId
      ({ st1 with
          conversationId := cid,
          messages := st1.messages ++ [⟨Role.assistant, r.response, r.tool_calls⟩],
          isLoading := false }, some sent)
    | .error _ =>
      ({ st1 with
          messages := st1.messages ++ [⟨Role.assistant, apologyText, none⟩],
          isLoading := false }, some sent)

/-- The try/catch around deleteConversation in startNewConversation: a
thrown error is logged and swallowed. -/
def tryCatchUnit (action : Except String Unit) : Except String Unit :=
  match action with
  | .ok _ => .ok ()
  | .error _ => .ok ()

/-- Chat.startNewConversation: when an id is held, the server delete is
attempted inside a try/catch that swallows errors; then the held id is set
to `null` and the message list cleared unconditionally. -/
def startNewConversation (st : ChatState) (deleteResult : Except String Unit) :
    Except String ChatState :=
  (if jsTruthyStrOpt st.conversationId then tryCatchUnit deleteResult
   else Except.ok ()).bind
    (fun _ => Except.ok { st with conversationId := none, messages := [] })

/-- Server-side message roles (spec, Data Model). -/
inductive SRole where
  | user : SRole
  | assistant : SRole
  | tool : SRole
deriving DecidableEq

/-- Modelled from the spec: a stored Message — role, textual content, and the
tool-call trace attached to assistant messages that triggered tools
(spec section 3, Data Model; the backend source is not shown). -/
structure SMessage where
  role : SRole
  content : String
  trace : List ToolCallRecord

/-- Modelled from the spec: the Conversation Store — ordered history per
conversation id plus a counter generating fresh server-side ids
(spec section 4.1; the backend source is not shown). -/
structure ConvStore where
  convs : List (String × List SMessage)
  counter : Nat

/-- Modelled from the spec: the id the store generates for the next created
conversation (opaque string, server-generated on first turn). -/
def freshId (s : ConvStore) : String :=
  "conv-" ++ toString s.counter

/-- Modelled from the spec: `create() -> id` of the Conversation Store. -/
def createConv (s : ConvStore) : String × ConvStore :=
  (freshId s, ⟨(freshId s, []) :: s.convs, s.counter + 1⟩)

/-- Modelled from the spec: `history(id)`, `none` when the id is unknown. -/
def lookupConv (s : ConvStore) (id : String) : Option (List SMessage) :=
  (s.convs.find? (fun p => p.1 == id)).map (fun p => p.2)

/-- Modelled from the spec: `delete(id) -> succeeds even if already absent
(idempotent)` — the entry is removed when present, and nothing fails when it
is not (spec section 4.1). -/
def deleteConv (s : ConvStore) (id : String) : ConvStore :=
  ⟨s.convs.filter (fun p => p.1 ≠ id), s.counter⟩

/-- Modelled from the spec: replacing the history stored under an id. -/
def updateConv (s : ConvStore) (id : String) (h : List SMessage) : ConvStore :=
  ⟨s.convs.map (fun p => if p.1 == id then (p.1, h) else p), s.counter⟩

/-- Modelled from the spec: a requested tool call — name plus input
parameters (spec section 3, ToolCall). -/
structure ToolCallReq where
  tool_name : String
  tool_input : List (String × Json)

/-- Modelled from the spec: a ToolResult is either a success payload or a
failure descriptor (kind + message), never partially populated
(spec section 3). -/
inductive ToolResult where
  | ok (value : Json) : ToolResult
  | err (kind : String) (msg : String) : ToolResult

/-- Rendering a ToolResult as the `tool_output` JSON of the trace. -/
def ToolResult.toJson : ToolResult → Json
  | .ok v => v
  | .err k m => Json.obj [("error", Json.str k), ("message", Json.str m)]

/-- Modelled from the spec: the Model Gateway Decision — a final answer or an
ordered sequence of requested tool calls (spec section 4.2). -/
inductive Decision where
  | finalAnswer (text : String) : Decision
  | toolRequest (calls : List ToolCallReq) : Decision

/-- Modelled from the spec: Model Gateway failure kinds (spec section 4.2). -/
inductive ModelError where
  | unavailable : ModelError
  | malformedOutput : ModelError

/-- Joining dispatched calls with their results into trace records. -/
def zipRecords (calls : List ToolCallReq) (results : List ToolResult) :
    List ToolCallRecord :=
  (calls.zip results).map (fun p => ⟨p.1.tool_name, p.1.tool_input, p.2.toJson⟩)

/-- Modelled from the spec: the hard bound on AwaitingDecision to Dispatching
cycles (spec section 4.5, default small, e.g. 4). -/
def MAX_ROUNDS : Nat := 4

/-- Modelled from the spec: the degraded final answer summarizing failure to
converge when the round limit is reached (spec section 4.5). -/
def degradedAnswer : String :=
  "I am sorry, I could not finish the request within the allowed number of tool rounds."

/-- Modelled from the spec: the user-visible error answer after gateway
retries are exhausted (spec section 4.5, step 5). -/
def modelFailureAnswer : String :=
  "I am sorry, I could not reach the language model. Please try again."

/-- What one turn of the orchestration loop produces: the final answer text,
the accumulated tool-call trace, the number of dispatch cycles taken, and
the updated history. -/
structure TurnOutcome where
  answer : String
  trace : List ToolCallRecord
  cycles : Nat
  hist : List SMessage

/-- Modelled from the spec: the orchestration loop body (spec section 4.5).
`fuel` counts the dispatch cycles still allowed after the current one; each
ToolRequest dispatches the calls, appends the assistant message carrying the
trace, and either recurses on the grown history or, when fuel is exhausted,
forces termination with the degraded answer.  A gateway failure (after the
retries the spec folds into it) yields the user-visible error answer; a
FinalAnswer ends the loop. -/
def loopAux (gw : List SMessage → Except ModelError Decision)
    (dispatch : List ToolCallReq → List ToolResult) :
    Nat → List SMessage → List ToolCallRecord → TurnOutcome
  | 0, hist, acc =>
    (match gw hist with
     | .error _ => ⟨modelFailureAnswer, acc, 0, hist⟩
     | .ok (.finalAnswer t) => ⟨t, acc, 0, hist⟩
     | .ok (.toolRequest calls) =>
       let recs := zipRecords calls (dispatch calls)
       ⟨degradedAnswer, acc ++ recs, 1, hist ++ [⟨SRole.assistant, "", recs⟩]⟩)
  | Nat.succ f, hist, acc =>
    (match gw hist with
     | .error _ => ⟨modelFailureAnswer, acc, 0, hist⟩
     | .ok (.finalAnswer t) => ⟨t, acc, 0, hist⟩
     | .ok (.toolRequest calls) =>
       let recs := zipRecords calls (dispatch calls)
       let o := loopAux gw dispatch f (hist ++ [⟨SRole.assistant, "", recs⟩]) (acc ++ recs)
       ⟨o.answer, o.trace, o.cycles + 1, o.hist⟩)

/-- Modelled from the spec: one full user turn — the user message is appended
first (always persisted), the loop runs with the round budget, and the final
assistant message is appended (spec section 4.5). -/
def runTurn (gw : List SMessage → Except ModelError Decision)
    (dispatch : List ToolCallReq → List ToolResult)
    (hist : List SMessage) (q : String) : TurnOutcome :=
  let hist0 := hist ++ [⟨SRole.user, q, []⟩]
  let o := loopAux gw dispatch (MAX_ROUNDS - 1) hist0 []
  { o with hist := o.hist ++ [⟨SRole.assistant, o.answer, []⟩] }

/-- Modelled from the spec: the only structured client error of the API
surface — NotFound on continuing an unknown conversation (spec section 7). -/
inductive ApiError where
  | notFound : ApiError

/-- Modelled from the spec: POST /api/agent (spec section 6).  With an id the
conversation must exist (else NotFound); without one a fresh Conversation is
created and its id returned.  The response carries the answer, the id, and
the tool-call trace when any tools ran. -/
def apiAgent (gw : List SMessage → Except ModelError Decision)
    (dispatch : List ToolCallReq → List ToolResult)
    (s : ConvStore) (q : String) (cid : Option String) :
    Except ApiError (AgentResponse × ConvStore) :=
  match cid with
  | some c =>
    (match lookupConv s c with
     | none => .error .notFound
     | some hist =>
       let o := runTurn gw dispatch hist q
       .ok (⟨o.answer, c, if o.trace.isEmpty then none else some o.trace⟩,
            updateConv s c o.hist))
  | none =>
    let p := createConv s
    let o := runTurn gw dispatch [] q
    .ok (⟨o.answer, p.1, if o.trace.isEmpty then none else some o.trace⟩,
         updateConv p.2 p.1 o.hist)

/-- A bare HTTP response: status code and optional JSON body. -/
structure HttpResp where
  status : Nat
  body : Option Json

/-- Modelled from the spec: DELETE /api/conversations/id — deletes the
Conversation, idempotent, no body, succeeds even if the id is absent
(spec sections 4.1 and 6). -/
def apiDeleteConversation (s : ConvStore) (id : String) : HttpResp × ConvStore :=
  (⟨204, none⟩, deleteConv s id)

/-- Modelled from the spec: the completion events of one concurrent dispatch.
Each launched call resolves once; `order` is the order in which completions
arrive, each event carrying the index of the call it belongs to and the
resolution `exec` of that call (spec section 4.4). -/
def completionEvents (exec : ToolCallReq → ToolResult)
    (calls : List ToolCallReq) (order : List Nat) : List (Nat × ToolResult) :=
  order.filterMap (fun i => calls[i]?.map (fun c => (i, exec c)))

/-- Modelled from the spec: the dispatcher assembles the results slot by slot
in input order, taking each slot's result from that call's completion event
(spec section 4.4). -/
def assembleResults (n : Nat) (events : List (Nat × ToolResult)) : List ToolResult :=
  (List.range n).map (fun j =>
    match events.find? (fun e => e.1 == j) with
    | some e => e.2
    | none => ToolResult.err "ToolTimeout" "no completion")

/-- Modelled from the spec: `execute(ordered sequence of ToolCall) -> ordered
sequence of ToolResult` — calls run concurrently, completions arrive in
`order`, and the returned sequence is rebuilt in input order
(spec section 4.4). -/
def dispatchExecute (exec : ToolCallReq → ToolResult)
    (order : List Nat) (calls : List ToolCallReq) : List ToolResult :=
  assembleResults calls.length (completionEvents exec calls order)

/-- Modelled from the spec: the Result Cache state — entries of key, value
and expiry timestamp (spec section 3, CacheEntry). -/
abbrev CacheState : Type := List (String × Json × Nat)

/-- Modelled from the spec: `get(key) -> value or miss` — a read at or after
the expiry timestamp is treated as absent; no entry is ever returned stale
(spec sections 3 and 4.3). -/
def cacheGet (c : CacheState) (k : String) (now : Nat) : Option Json :=
  match c.find? (fun e => e.1 == k) with
  | some e => if now < e.2.2 then some e.2.1 else none
  | none => none

/-- Modelled from the spec: `put(key, value, ttl)` at the current time;
last writer wins per key (spec sections 4.3 and 5). -/
def cachePut (c : CacheState) (k : String) (v : Json) (expiry : Nat) : CacheState :=
  (k, v, expiry) :: c.filter (fun e => e.1 ≠ k)

/-- What one cacheable invocation reports: the value, the new cache state,
and how many times the underlying executor ran (0 or 1). -/
structure InvokeResult where
  value : Json
  cache : CacheState
  execCount : Nat

/-- Modelled from the spec: one invocation of a cacheable tool — the input is
canonicalized into the cache key by the configurable policy `canon` (spec
sections 4.3 and 9); a live entry is returned without running the executor;
on a miss the executor runs once and the value is stored with expiry
`now + ttl`. -/
def cachedInvoke (canon : List (String × Json) → String)
    (exec : List (String × Json) → Json) (ttl : Nat)
    (input : List (String × Json)) (c : CacheState) (now : Nat) : InvokeResult :=
  let k := canon input
  match cacheGet c k now with
  | some v => ⟨v, c, 0⟩
  | none =>
    let v := exec input
    ⟨v, cachePut c k v (now + ttl), 1⟩

/-- Filtering twice with the same predicate is the same as filtering once. -/
theorem filter_self_idem {α : Type} (p : α → Bool) (l : List α) :
    (l.filter p).filter p = l.filter p := by
  induction l with
  | nil => rfl
  | cons a l ih =>
    by_cases h : p a = true
    · simp [List.filter_cons, h, ih]
    · simp [List.filter_cons, h, ih]

/-- After filtering out a key, no entry with that key is found. -/
theorem find_after_filter_ne (id : String) (l : List (String × List SMessage)) :
    (l.filter (fun p => p.1 ≠ id)).find? (fun p => p.1 == id) = none := by
  induction l with
  | nil => rfl
  | cons a l ih =>
    by_cases h : a.1 = id
    · simp [List.filter_cons, h, ih]
    · simp [List.filter_cons, h, List.find?, ih]

/-- C1: for every conversation id, including ids never created or already
deleted, the DELETE route succeeds with no body; server-side delete is
idempotent and leaves the id absent; deleting an absent id yields the same
success, and the frontend deleteConversation sees an ok response as plain
success, so the caller observes no error. -/
theorem delete_conversation_idempotent_and_total :
    (∀ s id, (apiDeleteConversation s id).1.status = 204 ∧
        (apiDeleteConversation s id).1.body = none) ∧
    (∀ s id, deleteConv (deleteConv s id) id = deleteConv s id) ∧
    (∀ s id, lookupConv (deleteConv s id) id = none) ∧
    ((apiDeleteConversation ⟨[], 0⟩ "never-created").1.status = 204) ∧
    (deleteConversation (FetchOutcome.response true none) = Except.ok ()) := by
  refine ⟨fun s id => ⟨rfl, rfl⟩, ?_, ?_, rfl, rfl⟩
  · intro s id
    simp [deleteConv, filter_self_idem]
  · intro s id
    simp [lookupConv, deleteConv, find_after_filter_ne]

/-- C10: startNewConversation always resets the held conversation id to null
and clears the message list, even when the server-side delete throws; the
delete error is swallowed and no error escapes. -/
theorem new_conversation_resets_even_on_delete_failure :
    ∀ st deleteResult, startNewConversation st deleteResult =
      Except.ok { st with conversationId := none, messages := [] } := by
  intro st r
  by_cases h : jsTruthyStrOpt st.conversationId = true
  · cases r <;> simp [startNewConversation, tryCatchUnit, h, Except.bind]
  · cases r <;> simp [startNewConversation, tryCatchUnit, h, Except.bind]

/-- C8 counterexample: an HTTP-ok health response whose body fails to parse
as JSON yields isHealthy = false, where the claim requires isHealthy = true
whenever the response is ok. -/
theorem checkHealth_ok_unparseable_body_unhealthy :
    ¬ ((checkHealth (FetchOutcome.response true none)).isHealthy = true) := by
  decide

/-- C8 amended: checkHealth never throws; it returns isHealthy = true with
the body's api_key_configured field exactly when the HTTP response is ok and
its body parses as non-null JSON, and returns isHealthy = false with the
field absent on any non-ok response, network failure, ok response whose body
fails to parse, or ok response whose body is JSON null (the property access
on null throws and is caught). -/
theorem checkHealth_shape_amended :
    (∀ out, (checkHealth out).isHealthy = true ↔
        ∃ j, out = FetchOutcome.response true (some j) ∧ j ≠ Json.null) ∧
    (∀ j, j ≠ Json.null → checkHealth (FetchOutcome.response true (some j)) =
        ⟨true, j.getField "api_key_configured"⟩) ∧
    (∀ e, checkHealth (FetchOutcome.netError e) = ⟨false, none⟩) ∧
    (∀ b, checkHealth (FetchOutcome.response false b) = ⟨false, none⟩) ∧
    (checkHealth (FetchOutcome.response true none) = ⟨false, none⟩) ∧
    (checkHealth (FetchOutcome.response true (some Json.null)) = ⟨false, none⟩) := by
  refine ⟨?_, ?_, fun e => rfl, fun b => rfl, rfl, rfl⟩
  · intro out
    cases out with
    | netError e => simp [checkHealth]
    | response ok body =>
      cases ok with
      | false => cases body <;> simp [checkHealth]
      | true =>
        cases body with
        | none => simp [checkHealth]
        | some j => cases j <;> simp [checkHealth]
  · intro j hj
    cases j with
    | null => exact absurd rfl hj
    | bool b => rfl
    | num n => rfl
    | str s => rfl
    | arr xs => rfl
    | obj fields => rfl

/-- Witness for the amended C8 at a concrete ok response whose body is a
JSON object carrying the api_key_configured field. -/
theorem checkHealth_shape_amended_witness :
    (Json.obj [("api_key_configured", Json.bool true)] ≠ Json.null) ∧
    checkHealth (FetchOutcome.response true
        (some (Json.obj [("api_key_configured", Json.bool true)]))) =
      ⟨true, some (Json.bool true)⟩ :=
  ⟨fun h => Json.noConfusion h,
    checkHealth_shape_amended.2.1 (Json.obj [("api_key_configured", Json.bool true)])
      (fun h => Json.noConfusion h)⟩

/-- C9: a submitted input that is empty or all whitespace after trimming
performs no agent request and changes nothing: the state (messages,
conversation id, loading flag, input box) is returned untouched and no
request is sent. -/
theorem blank_input_submits_nothing :
    ∀ st outcome, jsTrim st.input = "" → handleSubmit st outcome = (st, none) := by
  intro st outcome h
  simp [handleSubmit, h]

/-- Witness for C9 at a concrete whitespace input. -/
theorem blank_input_submits_nothing_witness :
    jsTrim "  " = "" ∧
    handleSubmit ⟨[], "  ", false, none⟩ (FetchOutcome.netError "boom") =
      (⟨[], "  ", false, none⟩, none) :=
  ⟨by decide, blank_input_submits_nothing ⟨[], "  ", false, none⟩
    (FetchOutcome.netError "boom") (by decide)⟩

/-- A serialized tool-call record decodes back to itself. -/
theorem decode_serialize_record (r : ToolCallRecord) :
    decodeToolCallRecord (serializeToolCallRecord r) = some r := rfl

/-- A serialized tool-call list decodes back to itself. -/
theorem decode_serialize_list (ts : List ToolCallRecord) :
    decodeToolCallList (ts.map serializeToolCallRecord) = some ts := by
  induction ts with
  | nil => rfl
  | cons r ts ih =>
    simp [List.map_cons, decodeToolCallList, decode_serialize_record, ih]

/-- A serialized agent response decodes back to itself: the declared
response shape is exactly what the decoder accepts. -/
theorem decode_serialize_response (r : AgentResponse) :
    decodeAgentResponse (serializeAgentResponse r) = some r := by
  cases r with
  | mk resp cid tc =>
    cases tc with
    | none => rfl
    | some ts =>
      have h : decodeToolCallList (ts.map serializeToolCallRecord) = some ts :=
        decode_serialize_list ts
      simp [decodeAgentResponse, serializeAgentResponse, Json.getField, h]

/-- C2: the POST /api/agent body holds exactly `query` plus an optional
`conversation_id` (the key is omitted when no id is passed); a successful
response is exactly the declared AgentResponse shape — `response` and
`conversation_id` mandatory, `tool_calls` optional — and queryAgent returns
precisely the decoded record on an ok response. -/
theorem agent_api_request_response_shape :
    (∀ q, stringifyAgentRequest q none = Json.obj [("query", Json.str q)]) ∧
    (∀ q c, stringifyAgentRequest q (some c) =
        Json.obj [("query", Json.str q), ("conversation_id", Json.str c)]) ∧
    (∀ r : AgentResponse, decodeAgentResponse (serializeAgentResponse r) = some r) ∧
    (∀ j r, decodeAgentResponse j = some r →
        queryAgent (FetchOutcome.response true (some j)) = Except.ok r) := by
  refine ⟨fun q => rfl, fun q c => rfl, decode_serialize_response, ?_⟩
  intro j r h
  simp [queryAgent, h]

/-- Witness for C2 at a concrete response body. -/
theorem agent_api_request_response_shape_witness :
    decodeAgentResponse
        (Json.obj [("response", Json.str "hi"), ("conversation_id", Json.str "c1")]) =
      some ⟨"hi", "c1", none⟩ ∧
    queryAgent (FetchOutcome.response true
        (some (Json.obj [("response", Json.str "hi"), ("conversation_id", Json.str "c1")]))) =
      Except.ok ⟨"hi", "c1", none⟩ :=
  ⟨rfl, agent_api_request_response_shape.2.2.2
    (Json.obj [("response", Json.str "hi"), ("conversation_id", Json.str "c1")])
    ⟨"hi", "c1", none⟩ rfl⟩

/-- C3: a turn sent without a conversation id makes the server create a new
Conversation and return its id, which the new store can resolve; the client
then stores the returned id when none was held, and once an id is held it
never changes across further turns (success or failure) and is the exact id
sent on every subsequent request, until the conversation is reset. -/
theorem conversation_id_created_held_and_reused :
    (∀ gw dispatch s q, ∃ r s2,
        apiAgent gw dispatch s q none = Except.ok (r, s2) ∧
        r.conversation_id = freshId s ∧
        (lookupConv s2 r.conversation_id).isSome = true) ∧
    (∀ st outcome r, st.conversationId = none → jsTrim st.input ≠ "" →
        queryAgent outcome = Except.ok r → r.conversation_id ≠ "" →
        (handleSubmit st outcome).1.conversationId = some r.conversation_id) ∧
    (∀ st outcome c, st.conversationId = some c → c ≠ "" →
        (handleSubmit st outcome).1.conversationId = some c ∧
        (∀ req, (handleSubmit st outcome).2 = some req →
          req.conversation_id = some c)) := by
  refine ⟨?_, ?_, ?_⟩
  · intro gw dispatch s q
    refine ⟨_, _, rfl, rfl, ?_⟩
    simp [lookupConv, updateConv, createConv, List.find?]
  · intro st outcome r h0 hne hq hcid
    simp only [handleSubmit, if_neg hne, hq]
    have : jsTruthyStrOpt st.conversationId = false := by
      rw [h0]; rfl
    simp [this, hcid]
  · intro st outcome c hc hcne
    by_cases hb : jsTrim st.input = ""
    · refine ⟨?_, ?_⟩
      · simp [handleSubmit, hb, hc]
      · intro req hreq
        simp [handleSubmit, hb] at hreq
    · have htr : jsTruthyStrOpt st.conversationId = true := by
        rw [hc]; simp [jsTruthyStrOpt, hcne]
      have hor : jsOrUndefined st.conversationId = some c := by
        rw [hc]; simp [jsOrUndefined, hcne]
      cases hq : queryAgent outcome with
      | ok r =>
        refine ⟨?_, ?_⟩
        · simp [handleSubmit, if_neg hb, hq, htr, hc]
          intro _ habs
          exact absurd habs (by simp [jsTruthyStrOpt, hcne])
        · intro req hreq
          simp only [handleSubmit, if_neg hb, hq] at hreq
          have : req = ⟨st.input, jsOrUndefined st.conversationId⟩ := by
            simpa using hreq.symm
          rw [this, hor]
      | error e =>
        refine ⟨?_, ?_⟩
        · simp [handleSubmit, if_neg hb, hq, hc]
        · intro req hreq
          simp only [handleSubmit, if_neg hb, hq] at hreq
          have : req = ⟨st.input, jsOrUndefined st.conversationId⟩ := by
            simpa using hreq.symm
          rw [this, hor]

/-- Witness for C3: a fresh turn with a successful response stores the
returned id, and a held id survives a further turn unchanged. -/
theorem conversation_id_created_held_and_reused_witness :
    jsTrim "hi" ≠ "" ∧
    queryAgent (FetchOutcome.response true
        (some (Json.obj [("response", Json.str "ok"), ("conversation_id", Json.str "c1")]))) =
      Except.ok ⟨"ok", "c1", none⟩ ∧
    (handleSubmit ⟨[], "hi", false, none⟩ (FetchOutcome.response true
        (some (Json.obj [("response", Json.str "ok"), ("conversation_id", Json.str "c1")])))).1.conversationId =
      some "c1" ∧
    (handleSubmit ⟨[], "more", false, some "c1"⟩ (FetchOutcome.netError "boom")).1.conversationId =
      some "c1" :=
  ⟨by decide, rfl,
    conversation_id_created_held_and_reused.2.1 ⟨[], "hi", false, none⟩
      (FetchOutcome.response true
        (some (Json.obj [("response", Json.str "ok"), ("conversation_id", Json.str "c1")])))
      ⟨"ok", "c1", none⟩ rfl (by decide) rfl (by decide),
    (conversation_id_created_held_and_reused.2.2 ⟨[], "more", false, some "c1"⟩
      (FetchOutcome.netError "boom") "c1" rfl (by decide)).1⟩

/-- The loop takes at most fuel + 1 dispatch cycles, whatever the gateway
and dispatcher do. -/
theorem loopAux_cycles_le (gw : List SMessage → Except ModelError Decision)
    (d : List ToolCallReq → List ToolResult) :
    ∀ fuel hist acc, (loopAux gw d fuel hist acc).cycles ≤ fuel + 1 := by
  intro fuel
  induction fuel with
  | zero =>
    intro hist acc
    simp only [loopAux]
    split
    · simp
    · simp
    · simp
  | succ f ih =>
    intro hist acc
    simp only [loopAux]
    split
    · simp
    · simp
    · exact Nat.succ_le_succ (ih _ _)

/-- Against a gateway that requests tools on every decision, the loop burns
all its fuel, takes exactly fuel + 1 dispatch cycles and ends degraded. -/
theorem loopAux_always_tool (gw : List SMessage → Except ModelError Decision)
    (d : List ToolCallReq → List ToolResult)
    (hgw : ∀ h, ∃ calls, gw h = Except.ok (Decision.toolRequest calls)) :
    ∀ fuel hist acc,
      (loopAux gw d fuel hist acc).answer = degradedAnswer ∧
      (loopAux gw d fuel hist acc).cycles = fuel + 1 := by
  intro fuel
  induction fuel with
  | zero =>
    intro hist acc
    obtain ⟨calls, hc⟩ := hgw hist
    simp [loopAux, hc]
  | succ f ih =>
    intro hist acc
    obtain ⟨calls, hc⟩ := hgw hist
    simp only [loopAux, hc]
    exact ⟨(ih _ _).1, by rw [(ih _ _).2]⟩

/-- C5: every turn of the orchestration loop terminates within MAX_ROUNDS
decide-dispatch cycles, for any gateway and dispatcher; and against a
gateway that requests tools on every decision the turn still terminates,
using exactly MAX_ROUNDS cycles and producing the degraded final answer. -/
theorem loop_terminates_within_max_rounds :
    (∀ gw dispatch hist q, (runTurn gw dispatch hist q).cycles ≤ MAX_ROUNDS) ∧
    (∀ gw dispatch hist q,
      (∀ h, ∃ calls, gw h = Except.ok (Decision.toolRequest calls)) →
      (runTurn gw dispatch hist q).answer = degradedAnswer ∧
      (runTurn gw dispatch hist q).cycles = MAX_ROUNDS) := by
  constructor
  · intro gw dispatch hist q
    exact loopAux_cycles_le gw dispatch (MAX_ROUNDS - 1) _ _
  · intro gw dispatch hist q hgw
    have h := loopAux_always_tool gw dispatch hgw (MAX_ROUNDS - 1)
      (hist ++ [⟨SRole.user, q, []⟩]) []
    exact ⟨h.1, h.2⟩

/-- Witness for C5 against a concrete always-tool gateway stub. -/
theorem loop_terminates_within_max_rounds_witness :
    (∀ hist, ∃ calls,
        (fun _ : List SMessage =>
          (Except.ok (Decision.toolRequest []) : Except ModelError Decision)) hist =
        Except.ok (Decision.toolRequest calls)) ∧
    (runTurn (fun _ => Except.ok (Decision.toolRequest []))
        (fun _ => []) [] "hi").answer = degradedAnswer ∧
    (runTurn (fun _ => Except.ok (Decision.toolRequest []))
        (fun _ => []) [] "hi").cycles = MAX_ROUNDS :=
  ⟨fun _hist => ⟨[], rfl⟩,
    (loop_terminates_within_max_rounds.2 (fun _ => Except.ok (Decision.toolRequest []))
      (fun _ => []) [] "hi" (fun _hist => ⟨[], rfl⟩)).1,
    (loop_terminates_within_max_rounds.2 (fun _ => Except.ok (Decision.toolRequest []))
      (fun _ => []) [] "hi" (fun _hist => ⟨[], rfl⟩)).2⟩

/-- C4: no turn ends in a transport-level error — every POST /api/agent call
returns a normal response unless it continues an unknown conversation, in
which case the error is exactly the structured NotFound; DELETE never errors;
a gateway failure and round-limit exhaustion each end the turn with an
apologetic normal answer; and when querying the agent throws on the client,
handleSubmit still appends a normal apologetic assistant message and clears
the loading flag. -/
theorem failures_resolve_to_normal_answers :
    (∀ gw dispatch s q cid,
        (∃ r s2, apiAgent gw dispatch s q cid = Except.ok (r, s2)) ∨
        (∃ c, cid = some c ∧ lookupConv s c = none ∧
          apiAgent gw dispatch s q cid = Except.error ApiError.notFound)) ∧
    (∀ s id, (apiDeleteConversation s id).1.status = 204) ∧
    (∀ dispatch hist q,
        (runTurn (fun _ => Except.error ModelError.unavailable) dispatch hist q).answer =
          modelFailureAnswer) ∧
    (∀ gw dispatch hist q,
        (∀ h, ∃ calls, gw h = Except.ok (Decision.toolRequest calls)) →
        (runTurn gw dispatch hist q).answer = degradedAnswer) ∧
    (∀ st outcome e, jsTrim st.input ≠ "" →
        queryAgent outcome = Except.error e →
        (handleSubmit st outcome).1.messages =
          st.messages ++ [⟨Role.user, st.input, none⟩, ⟨Role.assistant, apologyText, none⟩] ∧
        (handleSubmit st outcome).1.isLoading = false) := by
  refine ⟨?_, fun s id => rfl, fun dispatch hist q => rfl, ?_, ?_⟩
  · intro gw dispatch s q cid
    cases cid with
    | none => exact Or.inl ⟨_, _, rfl⟩
    | some c =>
      cases h : lookupConv s c with
      | none =>
        refine Or.inr ⟨c, rfl, h, ?_⟩
        simp [apiAgent, h]
      | some hist =>
        refine Or.inl ?_
        simp only [apiAgent, h]
        exact ⟨_, _, rfl⟩
  · intro gw dispatch hist q hgw
    exact (loopAux_always_tool gw dispatch hgw (MAX_ROUNDS - 1)
      (hist ++ [⟨SRole.user, q, []⟩]) []).1
  · intro st outcome e hne hq
    constructor
    · simp [handleSubmit, if_neg hne, hq]
    · simp [handleSubmit, if_neg hne, hq]

/-- Witness for C4: a client-side thrown error at a concrete input, and the
always-tool gateway hypothesis discharged by a concrete stub. -/
theorem failures_resolve_to_normal_answers_witness :
    jsTrim "hi" ≠ "" ∧
    queryAgent (FetchOutcome.netError "boom") = Except.error "boom" ∧
    (handleSubmit ⟨[], "hi", false, none⟩ (FetchOutcome.netError "boom")).1.messages =
      [⟨Role.user, "hi", none⟩, ⟨Role.assistant, apologyText, none⟩] ∧
    (handleSubmit ⟨[], "hi", false, none⟩ (FetchOutcome.netError "boom")).1.isLoading = false ∧
    (runTurn (fun _ => Except.ok (Decision.toolRequest []))
        (fun _ => []) [] "q").answer = degradedAnswer :=
  ⟨by decide, rfl,
    (failures_resolve_to_normal_answers.2.2.2.2 ⟨[], "hi", false, none⟩
      (FetchOutcome.netError "boom") "boom" (by decide) rfl).1,
    (failures_resolve_to_normal_answers.2.2.2.2 ⟨[], "hi", false, none⟩
      (FetchOutcome.netError "boom") "boom" (by decide) rfl).2,
    failures_resolve_to_normal_answers.2.2.2.1
      (fun _ => Except.ok (Decision.toolRequest [])) (fun _ => []) [] "q"
      (fun _h => ⟨[], rfl⟩)⟩


/-- In the completion events of a dispatch whose arrival order covers index
j, the event found for j carries the resolution of call j, wherever j
arrives in the order. -/
theorem find_in_events (exec : ToolCallReq → ToolResult) (calls : List ToolCallReq)
    (j : Nat) : ∀ order : List Nat, (∀ i ∈ order, i < calls.length) → j ∈ order →
      (completionEvents exec calls order).find? (fun e => e.1 == j) =
        calls[j]?.map (fun c => (j, exec c)) := by
  intro order
  induction order with
  | nil =>
    intro _ hj
    simp at hj
  | cons i rest ih =>
    intro hlt hj
    have hi : i < calls.length := hlt i (List.mem_cons_self i rest)
    have hc : calls[i]? = some (calls.get ⟨i, hi⟩) := List.getElem?_eq_getElem hi
    by_cases hij : i = j
    · subst hij
      simp [completionEvents, List.filterMap_cons, hc]
    · have hj' : j ∈ rest := by
        rcases List.mem_cons.mp hj with h | h
        · exact absurd h.symm hij
        · exact h
      have hrec := ih (fun x hx => hlt x (List.mem_cons_of_mem _ hx)) hj'
      simp only [completionEvents, List.filterMap_cons, hc, Option.map_some']
      rw [List.find?_cons_of_neg]
      · exact hrec
      · simp [hij]

/-- C6: for every sequence of N tool calls and every completion order of the
concurrent executions, the dispatcher returns exactly N results, one per
call, in the order of the input sequence: the output is the input mapped
through each call's resolution, independent of the completion order. -/
theorem dispatcher_preserves_input_order :
    ∀ (exec : ToolCallReq → ToolResult) (calls : List ToolCallReq) (order : List Nat),
      order.Perm (List.range calls.length) →
      dispatchExecute exec order calls = calls.map exec := by
  intro exec calls order hperm
  have hmem : ∀ i, i ∈ order ↔ i < calls.length := by
    intro i
    rw [hperm.mem_iff, List.mem_range]
  apply List.ext_getElem?
  intro n
  by_cases hn : n < calls.length
  · have hc : calls[n]? = some (calls.get ⟨n, hn⟩) := List.getElem?_eq_getElem hn
    have hfind := find_in_events exec calls n order
      (fun i hi => (hmem i).mp hi) ((hmem n).mpr hn)
    rw [hc] at hfind
    simp only [dispatchExecute, assembleResults, List.getElem?_map,
      List.getElem?_range hn, Option.map_some', hfind, hc]
  · have h1 : (List.range calls.length)[n]? = none := by
      rw [List.getElem?_eq_none_iff]
      simpa using Nat.le_of_not_lt hn
    have h2 : calls[n]? = none := by
      rw [List.getElem?_eq_none_iff]
      exact Nat.le_of_not_lt hn
    simp only [dispatchExecute, assembleResults, List.getElem?_map, h1, h2,
      Option.map_none']

/-- Witness for C6 at three concrete calls completing in the order 2, 0, 1. -/
theorem dispatcher_preserves_input_order_witness :
    ([2, 0, 1] : List Nat).Perm
      (List.range (List.length
        ([⟨"a", []⟩, ⟨"b", []⟩, ⟨"c", []⟩] : List ToolCallReq))) ∧
    dispatchExecute (fun c : ToolCallReq => ToolResult.ok (Json.str c.tool_name)) [2, 0, 1]
        [⟨"a", []⟩, ⟨"b", []⟩, ⟨"c", []⟩] =
      List.map (fun c : ToolCallReq => ToolResult.ok (Json.str c.tool_name))
        [⟨"a", []⟩, ⟨"b", []⟩, ⟨"c", []⟩] :=
  ⟨by decide,
    dispatcher_preserves_input_order (fun c : ToolCallReq => ToolResult.ok (Json.str c.tool_name))
      [⟨"a", []⟩, ⟨"b", []⟩, ⟨"c", []⟩] [2, 0, 1] (by decide)⟩

/-- C7: for a cacheable tool, a first invocation on a cold cache runs the
executor once; a second invocation with canonically-equal input before the
entry's expiry is a cache hit that runs the executor zero times and returns
the first value; a read at or after expiry is a miss (nothing stale is
returned), and an invocation then runs the executor again. -/
theorem cache_executor_at_most_once_within_ttl :
    ∀ (canon : List (String × Json) → String) (exec : List (String × Json) → Json)
      (ttl : Nat) (i1 i2 i3 : List (String × Json)) (c : CacheState) (t0 t1 t2 : Nat),
      canon i1 = canon i2 → canon i2 = canon i3 →
      cacheGet c (canon i1) t0 = none →
      t1 < t0 + ttl → t0 + ttl ≤ t2 →
      (cachedInvoke canon exec ttl i1 c t0).execCount = 1 ∧
      (cachedInvoke canon exec ttl i2
        (cachedInvoke canon exec ttl i1 c t0).cache t1).execCount = 0 ∧
      (cachedInvoke canon exec ttl i2
        (cachedInvoke canon exec ttl i1 c t0).cache t1).value = exec i1 ∧
      cacheGet (cachedInvoke canon exec ttl i2
        (cachedInvoke canon exec ttl i1 c t0).cache t1).cache (canon i3) t2 = none ∧
      (cachedInvoke canon exec ttl i3
        (cachedInvoke canon exec ttl i2
          (cachedInvoke canon exec ttl i1 c t0).cache t1).cache t2).execCount = 1 := by
  intro canon exec ttl i1 i2 i3 c t0 t1 t2 h12 h23 hmiss ht1 ht2
  have e1 : cachedInvoke canon exec ttl i1 c t0 =
      ⟨exec i1, cachePut c (canon i1) (exec i1) (t0 + ttl), 1⟩ := by
    simp [cachedInvoke, hmiss]
  have hf : (cachePut c (canon i1) (exec i1) (t0 + ttl)).find?
      (fun e => e.1 == canon i1) = some (canon i1, exec i1, t0 + ttl) := by
    simp only [cachePut]
    exact List.find?_cons_of_pos _ (by simp)
  have hget1 : cacheGet (cachePut c (canon i1) (exec i1) (t0 + ttl)) (canon i1) t1 =
      some (exec i1) := by
    simp [cacheGet, hf, ht1]
  have e2 : cachedInvoke canon exec ttl i2
      (cachePut c (canon i1) (exec i1) (t0 + ttl)) t1 =
      ⟨exec i1, cachePut c (canon i1) (exec i1) (t0 + ttl), 0⟩ := by
    simp [cachedInvoke, ← h12, hget1]
  have h13 : canon i3 = canon i1 := h23.symm.trans h12.symm
  have hnlt : ¬ t2 < t0 + ttl := Nat.not_lt.mpr ht2
  have hget2 : cacheGet (cachePut c (canon i1) (exec i1) (t0 + ttl)) (canon i3) t2 =
      none := by
    rw [h13]
    simp [cacheGet, hf, hnlt]
  have e3 : (cachedInvoke canon exec ttl i3
      (cachePut c (canon i1) (exec i1) (t0 + ttl)) t2).execCount = 1 := by
    simp [cachedInvoke, hget2]
  exact ⟨by simp [e1], by simp [e1, e2], by simp [e1, e2],
    by simp [e1, e2, hget2], by simp [e1, e2, e3]⟩

/-- Witness for C7 at a concrete key policy, executor, TTL 10 and read times
0, 5 and 12. -/
theorem cache_executor_at_most_once_within_ttl_witness :
    cacheGet ([] : CacheState) "k" 0 = none ∧
    (5 < 0 + 10) ∧ (0 + 10 ≤ 12) ∧
    (cachedInvoke (fun _ => "k") (fun _ => Json.num 7) 10 [] [] 0).execCount = 1 ∧
    (cachedInvoke (fun _ => "k") (fun _ => Json.num 7) 10 []
      (cachedInvoke (fun _ => "k") (fun _ => Json.num 7) 10 [] [] 0).cache 5).execCount = 0 ∧
    cacheGet (cachedInvoke (fun _ => "k") (fun _ => Json.num 7) 10 []
      (cachedInvoke (fun _ => "k") (fun _ => Json.num 7) 10 [] [] 0).cache 5).cache "k" 12 =
      none ∧
    (cachedInvoke (fun _ => "k") (fun _ => Json.num 7) 10 []
      (cachedInvoke (fun _ => "k") (fun _ => Json.num 7) 10 []
        (cachedInvoke (fun _ => "k") (fun _ => Json.num 7) 10 [] [] 0).cache 5).cache
      12).execCount = 1 := by
  have h := cache_executor_at_most_once_within_ttl (fun _ => "k") (fun _ => Json.num 7)
    10 [] [] [] [] 0 5 12 rfl rfl rfl (by decide) (by decide)
  exact ⟨rfl, by decide, by decide, h.1, h.2.1, h.2.2.2.1, h.2.2.2.2⟩
